import Mathlib

/-!
# Verification of the ResamplingScript raster resampler

Shallow embedding of `src/resample.py`. Python floats are modelled as
exact rationals (`ℚ`); "bit-for-bit" equality of copied coefficients is
equality in `ℚ`. NumPy integer pixel values are modelled as `ℤ` (the
final uint16 cast is taken mod 2^16). Python exceptions are modelled with
`Except`. CPython object identity (the `is` operator on strings, line 42
of the source) is modelled by tagging every string argument with an
object id; the literal `"rasterio"` in the source is one fixed object.

External collaborators (`scipy.ndimage.zoom` with `order=0,
mode='nearest'`, and `rasterio`'s `dataset.read(out_shape=..)`) are
modelled from their documented interface behaviour, which the spec also
describes in §4.2: `zoom` allocates `round(dim * zoom)` per axis (Python
banker's rounding), maps each output index to the source coordinate
`i * (in-1)/(out-1)` (factor 1 when the output axis has size ≤ 1), takes
the nearest source index (`floor(x + 1/2)`), and clamps out-of-bounds
indices to the valid range; `dataset.read(out_shape=..)` returns an
array of exactly the requested shape, sampled from the source grid.
-/

set_option autoImplicit false

/-- Python `int()` applied to a float: truncation toward zero
(`Int.tdiv` is truncating division, and the reduced denominator is positive). -/
def pyInt (q : ℚ) : ℤ := q.num.tdiv q.den

/-- Floor of a rational, phrased with `Int.fdiv` so that it reduces in the
kernel; `ratFloor_eq` identifies it with `⌊q⌋`. -/
def ratFloor (q : ℚ) : ℤ := q.num.fdiv q.den

/-- Python 3 `round()` to an integer: round half to even. -/
def pyRound (q : ℚ) : ℤ :=
  let f := ratFloor q
  let r := q - f
  if r < 1/2 then f
  else if 1/2 < r then f + 1
  else if f % 2 = 0 then f else f + 1

/-- The six coefficients of a rasterio `Affine` geotransform. -/
structure Affine where
  a : ℚ
  b : ℚ
  c : ℚ
  d : ℚ
  e : ℚ
  f : ℚ
deriving DecidableEq, Repr

/-- The interpolation policies offered by the CLI (`rasterio.enums.Resampling`). -/
inductive Resampling where
  | nearest
  | bilinear
  | cubic
  | cubic_spline
deriving DecidableEq, Repr

/-- A CPython string object: its object id together with its value.
`is` compares ids; `==` would compare values. -/
structure PyStr where
  id : Nat
  val : String
deriving DecidableEq, Repr

/-- The interned string literal `"rasterio"` occurring at line 42 of the source. -/
def rasterioLit : PyStr := ⟨0, "rasterio"⟩

/-- CPython's `is` operator: object identity. -/
def pyIs (x y : PyStr) : Bool := x.id == y.id

/-- Error taxonomy (spec §7); only `ShapeMismatch` is ever produced by the
embedded code (a ragged stack passed to `np.array`), `NoSubdatasets` exists to
state the spec's claim about empty subdataset lists. -/
inductive Err where
  | ShapeMismatch
  | NoSubdatasets
deriving DecidableEq, Repr

/-- A raster profile (rasterio `Profile` mapping), restricted to the keys the
script reads or writes. `height`/`width` are rationals because line 32-33 of
the source store the *float* products `dataset.height * scaling`. -/
structure Profile where
  count : Nat
  height : ℚ
  width : ℚ
  res : ℚ × ℚ
  transform : Affine
  driver : String
  dtype : String
deriving DecidableEq, Repr

/-- A pixel band: rows of integer samples. -/
abbrev Band := List (List ℤ)

/-- An open rasterio dataset (one subdataset): the in-memory view the script
reads through. -/
structure Dataset where
  bands : List Band
  height : Nat
  width : Nat
  res : ℚ × ℚ
  transform : Affine
  profile : Profile
deriving DecidableEq, Repr

/-- `dataset.count`: the number of bands. -/
def Dataset.count (ds : Dataset) : Nat := ds.bands.length

/-- Scale factor, line 26 of the source:
`scaling = int(dataset.res[0]) / float(target_resolution)`. -/
def resampleScaling (res0 target : ℚ) : ℚ := (pyInt res0 : ℚ) / target

/-- Output size of one axis under `scipy.ndimage.zoom`:
`int(round(dim * zoom))`. -/
def zoomDim (n : Nat) (s : ℚ) : Nat := (pyRound (n * s)).toNat

/-- Clamp an integer index into `[0, n-1]` (the `mode='nearest'` edge rule). -/
def clampIdx (n : Nat) (z : ℤ) : Nat := min (max z 0).toNat (n - 1)

/-- Source coordinate of output index `i` under `zoom` (grid_mode=False):
`i * (in-1)/(out-1)`, with factor 1 when the output axis has ≤ 1 sample. -/
def zoomCoord (inN outN i : Nat) : ℚ :=
  if outN ≤ 1 then (i : ℚ) else (i : ℚ) * ((inN : ℚ) - 1) / ((outN : ℚ) - 1)

/-- Source index sampled for output index `i`: nearest (order-0) rounding of
the source coordinate, clamped to the valid range. -/
def zoomIdx (inN outN i : Nat) : Nat :=
  clampIdx inN ⌊zoomCoord inN outN i + 1/2⌋

/-- `scipy.ndimage.zoom(layer, scaling, order=0, mode='nearest')` on a 2D
layer (line 57 of the source). -/
def zoom2d (layer : Band) (s : ℚ) : Band :=
  let h := layer.length
  let w := (layer.headD []).length
  let oh := zoomDim h s
  let ow := zoomDim w s
  (List.range oh).map fun i =>
    (List.range ow).map fun j =>
      ((layer.getD (zoomIdx h oh i) []).getD (zoomIdx w ow j) 0)

/-- `np.array(list_of_layers)` on a stack of 2D layers: succeeds only when
the stack is rectangular (NumPy refuses ragged stacks), returning the stack. -/
def npArray (layers : List Band) : Except Err (List Band) :=
  match layers with
  | [] => .ok []
  | l0 :: _ =>
    if layers.all fun l =>
        l.length == l0.length && l.all fun row => row.length == (l0.headD []).length
    then .ok layers
    else .error .ShapeMismatch

/-- Source index sampled by rasterio's nearest resampled read for output
index `i` of `outN` from an axis of `n`: `floor((i + 1/2) * n / outN)`,
clamped. -/
def rasterioSrcIdx (n outN i : Nat) : Nat := min (((2*i+1) * n) / (2 * outN)) (n - 1)

/-- `dataset.read(out_shape=(count, oh, ow), resampling=method)` (lines 44-51
of the source): an array of exactly the requested shape sampled from the
source grid. Exact kernel weights are an external numerical-library concern
(spec §4.2); nearest sampling is used for every policy, and no theorem below
depends on the sampled values except the scale-1 identity, where every policy
reads each source sample back unchanged. -/
def rasterioRead (ds : Dataset) (count oh ow : Nat) (_method : Resampling) : List Band :=
  (List.range count).map fun k =>
    (List.range oh).map fun i =>
      (List.range ow).map fun j =>
        ((ds.bands.getD k []).getD (rasterioSrcIdx ds.height oh i) []).getD
          (rasterioSrcIdx ds.width ow j) 0

/-- The value `resample_band` returns: `{"data": ..., "profile": ...}`. -/
structure BandOutput where
  data : List Band
  profile : Profile
deriving DecidableEq, Repr

/-- Lines 29-39 of the source: the deep-copied profile with
`res`, `transform`, `height`, `width` overwritten. The transform keeps
`b`, `c`, `d`, `f` and divides `a`, `e` by the scale factor; `height` and
`width` are the float products `dataset.height * scaling`,
`dataset.width * scaling`. -/
def resampledProfile (ds : Dataset) (target : ℚ) : Profile :=
  let scaling := resampleScaling ds.res.1 target
  let trans := ds.transform
  { ds.profile with
    res := (target, target)
    transform :=
      ⟨trans.a / scaling, trans.b, trans.c, trans.d, trans.e / scaling, trans.f⟩
    height := (ds.height : ℚ) * scaling
    width := (ds.width : ℚ) * scaling }

/-- `resample_band` (lines 12-67 of the source). The profile/transform
computation is unconditional; the data branch is selected by the *identity*
test `resampler is "rasterio"`. The rasterio branch reads at
`(count, int(height), int(width))`; the zoom branch stacks the per-layer
zooms with `np.array`, which fails on a ragged stack. -/
def resample_band (ds : Dataset) (target : ℚ) (method : Resampling)
    (resampler : PyStr) : Except Err BandOutput :=
  let scaling := resampleScaling ds.res.1 target
  let height : ℚ := (ds.height : ℚ) * scaling
  let width : ℚ := (ds.width : ℚ) * scaling
  let profile : Profile := resampledProfile ds target
  if pyIs resampler rasterioLit then
    .ok ⟨rasterioRead ds ds.count (pyInt height).toNat (pyInt width).toNat method, profile⟩
  else
    (npArray (ds.bands.map fun layer => zoom2d layer scaling)).map
      fun data => ⟨data, profile⟩

/-- The left-brace character, written by code point to keep format templates
free of literal braces. -/
def lbrace : Char := Char.ofNat 123

/-- The right-brace character. -/
def rbrace : Char := Char.ofNat 125

/-- Python `str.format` with empty `\x7b\x7d` placeholders: each placeholder
is replaced by the next argument, inserted verbatim (inserted text is not
rescanned). Sufficient for the template at line 136 of the source, which
uses only empty placeholders. -/
def pyFormatAux : List Char → List String → List Char
  | [], _ => []
  | [c], _ => [c]
  | c :: d :: rest, args =>
    if c = lbrace ∧ d = rbrace then
      match args with
      | a :: as => a.data ++ pyFormatAux rest as
      | [] => pyFormatAux rest []
    else c :: pyFormatAux (d :: rest) args

/-- Python `template.format(args...)` restricted to empty placeholders. -/
def pyFormat (template : String) (args : List String) : String :=
  ⟨pyFormatAux template.data args⟩

/-- The output path built at line 136 of the source:
`"/\x7b\x7d/\x7b\x7d_\x7b\x7d.tiff".format(output_path, naming_scheme, ds_num)`. -/
def toCreate (output_path naming_scheme : String) (ds_num : Nat) : String :=
  pyFormat "/\x7b\x7d/\x7b\x7d_\x7b\x7d.tiff" [output_path, naming_scheme, toString ds_num]

/-- `arr.astype(rio.uint16)` on one integer sample: NumPy wraps integers
into the unsigned 16-bit range. -/
def toUint16 (z : ℤ) : ℤ := z % 65536

/-- One write performed by `write_resampled` (lines 70-82 of the source):
the destination path, the bands as cast to uint16, and the profile the file
is opened with. -/
structure WriteRecord where
  path : String
  data : List Band
  profile : Profile
deriving DecidableEq, Repr

/-- What `load_and_resample` produces: the returned list of resampled
subdatasets and the sequence of file writes performed. -/
structure RunResult where
  outputs : List BandOutput
  written : List WriteRecord
deriving DecidableEq, Repr

/-- Python's `list(map(f, xs))` when `f` can raise: the first exception
aborts the whole traversal. -/
def mapExcept {α β : Type} (f : α → Except Err β) : List α → Except Err (List β)
  | [] => .ok []
  | a :: l => do
    let x ← f a
    let xs ← mapExcept f l
    return x :: xs

/-- `load_and_resample` (lines 85-140 of the source), from the point at which
the subdataset handles have been opened (discovery and the top-level file
check are external I/O). Every subdataset is resampled by the `list(map(...))`
at lines 109-117 — an exception there aborts the whole call before any write —
and then each result's profile is updated in place with
`driver="GTiff", dtype=rio.uint16` and written to
`"/\x7b\x7d/\x7b\x7d_\x7b\x7d.tiff".format(output_path, naming_scheme, ds_num)`
with the data cast to uint16. The updated dictionaries are also returned. -/
def load_and_resample (sds : List Dataset) (output_path naming_scheme : String)
    (target_res : ℤ) (method : Resampling) (resampler : PyStr) :
    Except Err RunResult := do
  let resampled ← mapExcept
    (fun d => resample_band d (target_res : ℚ) method resampler) sds
  let updated := resampled.map fun o =>
    { o with profile := { o.profile with driver := "GTiff", dtype := "uint16" } }
  let written := updated.enum.map fun (ds_num, o) =>
    { path := toCreate output_path naming_scheme ds_num
      data := o.data.map fun band => band.map fun row => row.map toUint16
      profile := o.profile : WriteRecord }
  return ⟨updated, written⟩

deriving instance DecidableEq for Except

/-- All bands have `h` rows of `w` samples (the shape a real rasterio
subdataset hands over: `read()` returns a `(count, height, width)` array). -/
abbrev RectBands (bands : List Band) (h w : Nat) : Prop :=
  ∀ b ∈ bands, b.length = h ∧ ∀ row ∈ b, row.length = w

/-- A sample geotransform used by the concrete witnesses. -/
def sampleTransform : Affine := ⟨10, 0, 100, 0, -10, 200⟩

/-- A sample source profile used by the concrete witnesses. -/
def sampleProfile : Profile :=
  ⟨1, 2, 2, (10, 10), sampleTransform, "HDF4", "float32"⟩

/-- A 2×2 single-band dataset with 10 m pixels. -/
def sampleDS : Dataset :=
  ⟨[[[1, 2], [3, 4]]], 2, 2, (10, 10), sampleTransform, sampleProfile⟩

/-- A runtime-constructed `"zoom"` string object (id distinct from the
`"rasterio"` literal's). -/
def zoomObj : PyStr := ⟨1, "zoom"⟩

/-- A dataset whose two bands have different shapes — `np.array` refuses to
stack their zoomed layers. -/
def raggedDS : Dataset :=
  ⟨[[[1, 2], [3, 4]], [[9]]], 2, 2, (10, 10), sampleTransform, sampleProfile⟩

/-- A 7×7 single-band dataset with 1 m pixels. -/
def bigDS : Dataset :=
  ⟨[List.replicate 7 (List.replicate 7 0)], 7, 7, (1, 1), ⟨1, 0, 0, 0, -1, 0⟩,
    ⟨1, 7, 7, (1, 1), ⟨1, 0, 0, 0, -1, 0⟩, "HDF4", "float32"⟩⟩

/-- A 5×4 single-band dataset with 1 m pixels. -/
def oddDS : Dataset :=
  ⟨[List.replicate 5 (List.replicate 4 0)], 5, 4, (1, 1), ⟨1, 0, 0, 0, -1, 0⟩,
    ⟨1, 5, 4, (1, 1), ⟨1, 0, 0, 0, -1, 0⟩, "HDF4", "float32"⟩⟩

/-- A 1×1 single-band dataset with 1 m pixels. -/
def tinyDS : Dataset :=
  ⟨[[[5]]], 1, 1, (1, 1), ⟨1, 0, 0, 0, -1, 0⟩,
    ⟨1, 1, 1, (1, 1), ⟨1, 0, 0, 0, -1, 0⟩, "HDF4", "float32"⟩⟩

/-- A 2×2 single-band dataset with non-integral 1.5 m pixels. -/
def fracDS : Dataset :=
  ⟨[[[1, 2], [3, 4]]], 2, 2, (3/2, 3/2), sampleTransform, sampleProfile⟩

/-- The value `resample_band sampleDS 10 .nearest zoomObj` produces
(scale factor 1, so data and geometry are unchanged). -/
def sampleOut : BandOutput :=
  ⟨[[[1, 2], [3, 4]]], ⟨1, 2, 2, (10, 10), sampleTransform, "HDF4", "float32"⟩⟩

/-- The value `resample_band sampleDS 5 .nearest zoomObj` produces
(scale factor 2: each source sample is duplicated into a 2×2 block). -/
def sampleOut5 : BandOutput :=
  ⟨[[[1, 1, 2, 2], [1, 1, 2, 2], [3, 3, 4, 4], [3, 3, 4, 4]]],
    ⟨1, 4, 4, (5, 5), ⟨5, 0, 100, 0, -5, 200⟩, "HDF4", "float32"⟩⟩

/-! ## Helper lemmas -/

theorem ratFloor_eq (q : ℚ) : ratFloor q = ⌊q⌋ := by
  rw [Rat.floor_def, ratFloor, Int.fdiv_eq_ediv _ (Int.natCast_nonneg _)]

theorem pyInt_eq_floor (q : ℚ) (h : 0 ≤ q) : pyInt q = ⌊q⌋ := by
  rw [Rat.floor_def, pyInt,
    Int.tdiv_eq_ediv (Rat.num_nonneg.mpr h) (Int.natCast_nonneg _)]

theorem pyInt_natCast (n : ℕ) : pyInt (n : ℚ) = n := by
  rw [pyInt_eq_floor _ (by positivity)]
  exact_mod_cast Int.floor_natCast n

theorem pyRound_natCast (n : ℕ) : pyRound (n : ℚ) = n := by
  have hf : ratFloor (n : ℚ) = (n : ℤ) := by
    rw [ratFloor_eq]; exact_mod_cast Int.floor_natCast n
  simp only [pyRound, hf]
  rw [if_pos]
  push_cast
  norm_num

theorem map_range_getD {α : Type} (l : List α) (d : α) :
    (List.range l.length).map (fun i => l.getD i d) = l := by
  induction l with
  | nil => rfl
  | cons a t ih =>
    rw [List.length_cons, List.range_succ_eq_map, List.map_cons, List.map_map]
    refine congrArg (a :: ·) ?_
    calc (List.range t.length).map ((fun i => (a :: t).getD i d) ∘ (· + 1))
        = (List.range t.length).map (fun i => t.getD i d) := by
          refine List.map_congr_left fun i _ => ?_
          simp [Function.comp]
      _ = t := ih

theorem getD_mem {α : Type} (l : List α) (k : Nat) (d : α) (h : k < l.length) :
    l.getD k d ∈ l := by
  rw [List.getD_eq_getElem l d h]
  exact List.getElem_mem h

theorem clampIdx_lt (n : Nat) (z : ℤ) (hn : 0 < n) : clampIdx n z < n :=
  lt_of_le_of_lt (Nat.min_le_right _ _) (Nat.sub_lt hn Nat.one_pos)

theorem zoomDim_one (n : Nat) : zoomDim n 1 = n := by
  rw [zoomDim, mul_one, pyRound_natCast]
  exact Int.toNat_natCast n

theorem floor_half : ⌊(1/2 : ℚ)⌋ = 0 := by
  rw [Int.floor_eq_zero_iff]
  constructor <;> norm_num

theorem zoomIdx_self (n i : Nat) (h : i < n) : zoomIdx n n i = i := by
  have hfloor : ⌊(i : ℚ) + 1/2⌋ = (i : ℤ) := by
    rw [show ((i : ℚ) + 1/2) = (1/2 + ((i : ℤ) : ℚ)) by push_cast; ring,
      Int.floor_add_int, floor_half, zero_add]
  have hcoord : zoomCoord n n i = (i : ℚ) := by
    rw [zoomCoord]
    by_cases h1 : n ≤ 1
    · rw [if_pos h1]
    · rw [if_neg h1]
      have hne : ((n : ℚ) - 1) ≠ 0 := by
        have : (2 : ℚ) ≤ (n : ℚ) := by exact_mod_cast Nat.succ_le_of_lt (Nat.lt_of_not_le h1)
        linarith
      field_simp
  rw [zoomIdx, hcoord, hfloor, clampIdx]
  have : (max (i : ℤ) 0).toNat = i := by omega
  rw [this]
  omega

theorem zoom2d_one (layer : Band) (w : Nat) (hw : ∀ row ∈ layer, row.length = w) :
    zoom2d layer 1 = layer := by
  match layer with
  | [] =>
    simp only [zoom2d, List.length_nil, zoomDim_one, List.range_zero, List.map_nil]
  | r0 :: rest =>
    simp only [zoom2d, List.headD_cons, zoomDim_one]
    have hrow : ∀ i ∈ List.range (r0 :: rest).length,
        (List.range r0.length).map
          (fun j => (((r0 :: rest).getD (zoomIdx (r0 :: rest).length (r0 :: rest).length i) []).getD
            (zoomIdx r0.length r0.length j) 0))
          = (r0 :: rest).getD i [] := by
      intro i hi
      rw [List.mem_range] at hi
      rw [zoomIdx_self _ _ hi]
      have hlen : (((r0 :: rest).getD i []).length) = r0.length := by
        rw [hw _ (getD_mem _ _ _ hi), hw r0 (List.mem_cons_self r0 rest)]
      calc (List.range r0.length).map
            (fun j => ((r0 :: rest).getD i []).getD (zoomIdx r0.length r0.length j) 0)
          = (List.range r0.length).map
            (fun j => ((r0 :: rest).getD i []).getD j 0) := by
            refine List.map_congr_left fun j hj => ?_
            rw [List.mem_range] at hj
            rw [zoomIdx_self _ _ hj]
        _ = (List.range (((r0 :: rest).getD i []).length)).map
            (fun j => ((r0 :: rest).getD i []).getD j 0) := by rw [hlen]
        _ = (r0 :: rest).getD i [] := map_range_getD _ _
    calc (List.range (r0 :: rest).length).map (fun i =>
            (List.range r0.length).map
              (fun j => (((r0 :: rest).getD (zoomIdx (r0 :: rest).length (r0 :: rest).length i) []).getD
                (zoomIdx r0.length r0.length j) 0)))
        = (List.range (r0 :: rest).length).map (fun i => (r0 :: rest).getD i []) :=
          List.map_congr_left hrow
      _ = r0 :: rest := map_range_getD _ _

theorem rasterioSrcIdx_self (n i : Nat) (h : i < n) : rasterioSrcIdx n n i = i := by
  have hn : 0 < n := by omega
  rw [rasterioSrcIdx]
  have hdiv : ((2*i+1) * n) / (2 * n) = i := by
    have : (2*i+1) * n = n + (2 * n) * i := by ring
    rw [this, Nat.add_mul_div_left _ _ (by omega), Nat.div_eq_of_lt (by omega)]
    omega
  rw [hdiv]
  omega

theorem npArray_rect (layers : List Band) (h w : Nat) (hrect : RectBands layers h w) :
    npArray layers = .ok layers := by
  match layers with
  | [] => rfl
  | l0 :: rest =>
    have hcond : ((l0 :: rest).all fun l =>
        l.length == l0.length && l.all fun row =>
          row.length == (l0.headD []).length) = true := by
      refine List.all_eq_true.mpr fun l hl => ?_
      have hL := hrect l hl
      have hL0 := hrect l0 (List.mem_cons_self _ _)
      rw [Bool.and_eq_true]
      refine ⟨beq_iff_eq.mpr (hL.1.trans hL0.1.symm), ?_⟩
      refine List.all_eq_true.mpr fun row hrow => ?_
      match hl0 : l0 with
      | [] =>
        have hzero : l.length = 0 := by rw [hL.1, ← hL0.1]; rfl
        rw [List.length_eq_zero] at hzero
        subst hzero
        cases hrow
      | r0 :: rest0 =>
        rw [List.headD_cons]
        exact beq_iff_eq.mpr
          ((hL.2 row hrow).trans (hL0.2 r0 (List.mem_cons_self _ _)).symm)
    rw [npArray, if_pos hcond]

theorem rasterioRead_self (ds : Dataset) (m : Resampling)
    (hrect : RectBands ds.bands ds.height ds.width) :
    rasterioRead ds ds.count ds.height ds.width m = ds.bands := by
  rw [rasterioRead, Dataset.count]
  have hband : ∀ k ∈ List.range ds.bands.length,
      (List.range ds.height).map (fun i => (List.range ds.width).map fun j =>
        ((ds.bands.getD k []).getD (rasterioSrcIdx ds.height ds.height i) []).getD
          (rasterioSrcIdx ds.width ds.width j) 0) = ds.bands.getD k [] := by
    intro k hk
    rw [List.mem_range] at hk
    have hb := hrect _ (getD_mem ds.bands k [] hk)
    have hrow : ∀ i ∈ List.range ds.height,
        (List.range ds.width).map (fun j =>
          ((ds.bands.getD k []).getD (rasterioSrcIdx ds.height ds.height i) []).getD
            (rasterioSrcIdx ds.width ds.width j) 0)
          = (ds.bands.getD k []).getD i [] := by
      intro i hi
      rw [List.mem_range] at hi
      rw [rasterioSrcIdx_self _ _ hi]
      have hib : i < (ds.bands.getD k []).length := by rw [hb.1]; exact hi
      have hlen : ((ds.bands.getD k []).getD i []).length = ds.width :=
        hb.2 _ (getD_mem (ds.bands.getD k []) i [] hib)
      calc (List.range ds.width).map (fun j =>
              ((ds.bands.getD k []).getD i []).getD (rasterioSrcIdx ds.width ds.width j) 0)
          = (List.range ds.width).map (fun j => ((ds.bands.getD k []).getD i []).getD j 0) := by
            refine List.map_congr_left fun j hj => ?_
            rw [List.mem_range] at hj
            rw [rasterioSrcIdx_self _ _ hj]
        _ = (List.range (((ds.bands.getD k []).getD i []).length)).map
              (fun j => ((ds.bands.getD k []).getD i []).getD j 0) := by rw [hlen]
        _ = (ds.bands.getD k []).getD i [] := map_range_getD _ _
    calc (List.range ds.height).map (fun i => (List.range ds.width).map fun j =>
            ((ds.bands.getD k []).getD (rasterioSrcIdx ds.height ds.height i) []).getD
              (rasterioSrcIdx ds.width ds.width j) 0)
        = (List.range ds.height).map (fun i => (ds.bands.getD k []).getD i []) :=
          List.map_congr_left hrow
      _ = (List.range ((ds.bands.getD k []).length)).map
            (fun i => (ds.bands.getD k []).getD i []) := by rw [hb.1]
      _ = ds.bands.getD k [] := map_range_getD _ _
  calc (List.range ds.bands.length).map (fun k =>
          (List.range ds.height).map fun i => (List.range ds.width).map fun j =>
            ((ds.bands.getD k []).getD (rasterioSrcIdx ds.height ds.height i) []).getD
              (rasterioSrcIdx ds.width ds.width j) 0)
      = (List.range ds.bands.length).map (fun k => ds.bands.getD k []) :=
        List.map_congr_left hband
    _ = ds.bands := map_range_getD _ _

theorem resample_band_rasterio (ds : Dataset) (target : ℚ) (m : Resampling)
    (r : PyStr) (hb : pyIs r rasterioLit = true) :
    resample_band ds target m r = .ok
      ⟨rasterioRead ds ds.count
          (pyInt ((ds.height : ℚ) * resampleScaling ds.res.1 target)).toNat
          (pyInt ((ds.width : ℚ) * resampleScaling ds.res.1 target)).toNat m,
        resampledProfile ds target⟩ := by
  simp only [resample_band, hb, if_true]

theorem resample_band_zoom (ds : Dataset) (target : ℚ) (m : Resampling)
    (r : PyStr) (hb : pyIs r rasterioLit = false) :
    resample_band ds target m r =
      (npArray (ds.bands.map fun layer =>
          zoom2d layer (resampleScaling ds.res.1 target))).map
        (fun data => ⟨data, resampledProfile ds target⟩) := by
  simp only [resample_band, hb, Bool.false_eq_true, if_false]

theorem resample_band_profile_eq (ds : Dataset) (target : ℚ) (m : Resampling)
    (r : PyStr) (out : BandOutput) (h : resample_band ds target m r = .ok out) :
    out.profile = resampledProfile ds target := by
  cases hb : pyIs r rasterioLit with
  | true =>
    rw [resample_band_rasterio ds target m r hb] at h
    cases Except.ok.inj h
    rfl
  | false =>
    rw [resample_band_zoom ds target m r hb] at h
    cases hnp : npArray (ds.bands.map fun layer =>
        zoom2d layer (resampleScaling ds.res.1 target)) with
    | ok d =>
      rw [hnp] at h
      simp only [Except.map] at h
      cases Except.ok.inj h
      rfl
    | error e =>
      rw [hnp] at h
      simp only [Except.map] at h
      cases h

theorem resample_band_data_zoom (ds : Dataset) (target : ℚ) (m : Resampling)
    (r : PyStr) (out : BandOutput) (hb : pyIs r rasterioLit = false)
    (h : resample_band ds target m r = .ok out) :
    out.data = ds.bands.map fun layer =>
      zoom2d layer (resampleScaling ds.res.1 target) := by
  rw [resample_band_zoom ds target m r hb] at h
  cases hnp : npArray (ds.bands.map fun layer =>
      zoom2d layer (resampleScaling ds.res.1 target)) with
  | ok d =>
    rw [hnp] at h
    simp only [Except.map] at h
    cases Except.ok.inj h
    have : d = ds.bands.map fun layer =>
        zoom2d layer (resampleScaling ds.res.1 target) := by
      match hnp2 : ds.bands.map fun layer =>
          zoom2d layer (resampleScaling ds.res.1 target) with
      | [] => rw [hnp2] at hnp; cases Except.ok.inj hnp; rfl
      | l0 :: rest =>
        rw [hnp2, npArray] at hnp
        by_cases hc : ((l0 :: rest).all fun l =>
            l.length == l0.length && l.all fun row =>
              row.length == (l0.headD []).length) = true
        · rw [if_pos hc] at hnp; exact (Except.ok.inj hnp).symm
        · rw [if_neg hc] at hnp; cases hnp
    rw [this]
  | error e =>
    rw [hnp] at h
    simp only [Except.map] at h
    cases h

theorem mapExcept_error {α β : Type} (f : α → Except Err β) (l : List α) (d : α)
    (hd : d ∈ l) (e : Err) (hf : f d = .error e) :
    ∃ e', mapExcept f l = .error e' := by
  induction l with
  | nil => cases hd
  | cons a t ih =>
    cases List.mem_cons.mp hd with
    | inl h =>
      subst h
      exact ⟨e, by rw [mapExcept, hf]; rfl⟩
    | inr h =>
      obtain ⟨e', he'⟩ := ih h
      cases hfa : f a with
      | error ea => exact ⟨ea, by rw [mapExcept, hfa]; rfl⟩
      | ok xa =>
        refine ⟨e', ?_⟩
        rw [mapExcept, hfa]
        show (mapExcept f t).bind _ = _
        rw [he']
        rfl

/-! ## Claims -/

/-- C1: for every resample, the output transform keeps coefficients
`b`, `c`, `d`, `f` bit-for-bit equal to the source transform's, and only the
pixel-size terms change, rescaled as `a' = a/scale`, `e' = e/scale`. -/
theorem C1_transform_invariant (ds : Dataset) (target : ℚ) (m : Resampling)
    (r : PyStr) (out : BandOutput)
    (h : resample_band ds target m r = .ok out) :
    out.profile.transform.b = ds.transform.b ∧
    out.profile.transform.c = ds.transform.c ∧
    out.profile.transform.d = ds.transform.d ∧
    out.profile.transform.f = ds.transform.f ∧
    out.profile.transform.a = ds.transform.a / resampleScaling ds.res.1 target ∧
    out.profile.transform.e = ds.transform.e / resampleScaling ds.res.1 target := by
  rw [resample_band_profile_eq ds target m r out h]
  exact ⟨rfl, rfl, rfl, rfl, rfl, rfl⟩

/-- C1 witness: the invariant holds on a concrete 2×2 dataset resampled
from 10 m to 10 m with the zoom strategy. -/
theorem C1_witness :
    resample_band sampleDS 10 .nearest zoomObj = .ok sampleOut ∧
    (sampleOut.profile.transform.b = sampleDS.transform.b ∧
     sampleOut.profile.transform.c = sampleDS.transform.c ∧
     sampleOut.profile.transform.d = sampleDS.transform.d ∧
     sampleOut.profile.transform.f = sampleDS.transform.f ∧
     sampleOut.profile.transform.a = sampleDS.transform.a / resampleScaling sampleDS.res.1 10 ∧
     sampleOut.profile.transform.e = sampleDS.transform.e / resampleScaling sampleDS.res.1 10) := by
  have h : resample_band sampleDS 10 .nearest zoomObj = .ok sampleOut := by
    with_unfolding_all decide
  exact ⟨h, C1_transform_invariant sampleDS 10 .nearest zoomObj sampleOut h⟩

/-- C2: the scale factor is `floor(source_pixel_size) / target_resolution` —
the pixel size is truncated to an integer before dividing — and this differs
from `exact_pixel_size / target_resolution` whenever the source pixel size is
non-integral. -/
theorem C2_scaling_truncates (res0 target : ℚ) (h0 : 0 < res0) (ht : 0 < target) :
    resampleScaling res0 target = (⌊res0⌋ : ℚ) / target ∧
    (res0 ≠ (⌊res0⌋ : ℚ) → resampleScaling res0 target ≠ res0 / target) := by
  constructor
  · rw [resampleScaling, pyInt_eq_floor res0 h0.le]
  · intro hni heq
    rw [resampleScaling, pyInt_eq_floor res0 h0.le] at heq
    have hne : target ≠ 0 := ht.ne'
    field_simp at heq
    exact absurd (by linarith : res0 = (⌊res0⌋ : ℚ)) hni

/-- C2 witness: a 2.5 m source pixel with a 2 m target gives scale
`⌊2.5⌋/2 = 1`, not the exact `2.5/2 = 1.25`. -/
theorem C2_witness :
    (0 < (5/2 : ℚ)) ∧ (0 < (2 : ℚ)) ∧
    (resampleScaling (5/2) 2 = ((⌊(5/2 : ℚ)⌋ : ℚ)) / 2 ∧
      ((5/2 : ℚ) ≠ ((⌊(5/2 : ℚ)⌋ : ℚ)) →
        resampleScaling (5/2) 2 ≠ (5/2) / 2)) :=
  ⟨by norm_num, by norm_num,
    C2_scaling_truncates (5/2) 2 (by norm_num) (by norm_num)⟩

/-- C3 counterexample: with zero subdatasets the run returns `Except.ok` with
an empty output list and writes nothing; it does not fail with
`NoSubdatasets` as the claim states. -/
theorem C3_counterexample :
    load_and_resample [] "outdir" "scheme" 10 .nearest zoomObj = .ok ⟨[], []⟩ ∧
    load_and_resample [] "outdir" "scheme" 10 .nearest zoomObj ≠
      .error .NoSubdatasets := by
  have h1 : load_and_resample [] "outdir" "scheme" 10 .nearest zoomObj =
      .ok ⟨[], []⟩ := rfl
  exact ⟨h1, fun h => by rw [h1] at h; cases h⟩

/-- C3 amended: if the source raster declares zero subdatasets, the operation
silently succeeds with an empty output list and creates no output files;
no `NoSubdatasets` error is raised (the guard at lines 125-132 of the source
is commented out). -/
theorem C3_empty_silent (op ns : String) (t : ℤ) (m : Resampling) (r : PyStr) :
    load_and_resample [] op ns t m r = .ok ⟨[], []⟩ := rfl

/-- C4 counterexample: with source pixel size 1.5 and target resolution 1.5
(equal to it), the computed scale factor is 2/3, not 1, and the zoom output
grid is 1×1 while the source grid is 2×2. -/
theorem C4_counterexample :
    resampleScaling fracDS.res.1 (3/2) ≠ 1 ∧
    ((resample_band fracDS (3/2) .nearest zoomObj).toOption.map
        (fun o => ((o.data.headD []).length, ((o.data.headD []).headD []).length)))
      = some (1, 1) ∧
    (fracDS.height, fracDS.width) = (2, 2) := by
  with_unfolding_all decide

/-- C4 amended: when the source pixel size is a positive *integer* `n` and
the target resolution equals it, the scale factor is exactly 1, the output
profile declares the source grid and transform unchanged, and the resampled
data is pixel-for-pixel identical to the input under either strategy. -/
theorem C4_integer_identity (ds : Dataset) (m : Resampling) (r : PyStr) (n : ℕ)
    (hn : 0 < n) (hres : ds.res.1 = (n : ℚ))
    (hrect : RectBands ds.bands ds.height ds.width) :
    resampleScaling ds.res.1 (n : ℚ) = 1 ∧
    resample_band ds (n : ℚ) m r = .ok
      ⟨ds.bands,
        { ds.profile with
          res := ((n : ℚ), (n : ℚ))
          transform := ds.transform
          height := (ds.height : ℚ)
          width := (ds.width : ℚ) }⟩ := by
  have hscale : resampleScaling ds.res.1 (n : ℚ) = 1 := by
    rw [hres, resampleScaling, pyInt_natCast]
    exact div_self (by exact_mod_cast hn.ne')
  have hprof : resampledProfile ds (n : ℚ) = { ds.profile with
      res := ((n : ℚ), (n : ℚ))
      transform := ds.transform
      height := (ds.height : ℚ)
      width := (ds.width : ℚ) } := by
    simp only [resampledProfile, hscale, div_one, mul_one]
  refine ⟨hscale, ?_⟩
  cases hb : pyIs r rasterioLit with
  | true =>
    rw [resample_band_rasterio ds (n : ℚ) m r hb, hprof]
    have hA : (pyInt ((ds.height : ℚ) * resampleScaling ds.res.1 (n : ℚ))).toNat
        = ds.height := by
      rw [hscale, mul_one, pyInt_natCast, Int.toNat_natCast]
    have hB : (pyInt ((ds.width : ℚ) * resampleScaling ds.res.1 (n : ℚ))).toNat
        = ds.width := by
      rw [hscale, mul_one, pyInt_natCast, Int.toNat_natCast]
    rw [hA, hB, rasterioRead_self ds m hrect]
  | false =>
    rw [resample_band_zoom ds (n : ℚ) m r hb]
    have hmap : ds.bands.map (fun layer =>
        zoom2d layer (resampleScaling ds.res.1 (n : ℚ))) = ds.bands := by
      rw [hscale]
      exact (List.map_congr_left fun l hl =>
        zoom2d_one l ds.width ((hrect l hl).2)).trans (List.map_id _)
    rw [hmap, npArray_rect ds.bands ds.height ds.width hrect]
    simp only [Except.map]
    rw [hprof]

/-- C4 witness: the amended identity on a concrete 2×2 dataset with integer
10 m pixels resampled to 10 m through the rasterio branch. -/
theorem C4_witness :
    (0 < 10) ∧ sampleDS.res.1 = ((10 : ℕ) : ℚ) ∧
    RectBands sampleDS.bands sampleDS.height sampleDS.width ∧
    (resampleScaling sampleDS.res.1 ((10 : ℕ) : ℚ) = 1 ∧
     resample_band sampleDS ((10 : ℕ) : ℚ) .bilinear rasterioLit = .ok
       ⟨sampleDS.bands,
         { sampleDS.profile with
           res := (((10 : ℕ) : ℚ), ((10 : ℕ) : ℚ))
           transform := sampleDS.transform
           height := (sampleDS.height : ℚ)
           width := (sampleDS.width : ℚ) }⟩) :=
  ⟨by decide, by with_unfolding_all decide, by decide,
    C4_integer_identity sampleDS .bilinear rasterioLit 10 (by decide)
      (by with_unfolding_all decide) (by decide)⟩

theorem pyRound_zero : pyRound 0 = 0 := by
  have := pyRound_natCast 0
  rwa [Nat.cast_zero] at this

theorem zoomDim_zero (s : ℚ) : zoomDim 0 s = 0 := by
  rw [zoomDim, Nat.cast_zero, zero_mul, pyRound_zero]
  rfl

theorem zoom2d_length (layer : Band) (s : ℚ) :
    (zoom2d layer s).length = zoomDim layer.length s := by
  simp only [zoom2d, List.length_map, List.length_range]

theorem zoom2d_row_length (layer : Band) (s : ℚ) :
    ∀ row ∈ zoom2d layer s, row.length = zoomDim ((layer.headD []).length) s := by
  intro row hrow
  simp only [zoom2d, List.mem_map] at hrow
  obtain ⟨i, _, rfl⟩ := hrow
  simp only [List.length_map, List.length_range]

/-- C5 counterexample: a 7×7 source resampled at scale 1/2 through the
rasterio branch is allocated a 3×3 grid — the *truncated* products
`int(3.5) = 3` — while `round(7 × 1/2) = 4`; and a 1×1 source at scale 1/4
yields a 0×0 zoom output, violating the claimed ≥ 1 bound. -/
theorem C5_counterexample :
    ((resample_band bigDS 2 .nearest rasterioLit).toOption.map
        (fun o => ((o.data.headD []).length, ((o.data.headD []).headD []).length)))
      = some (3, 3) ∧
    pyRound ((7 : ℚ) * resampleScaling 1 2) = 4 ∧
    ((resample_band tinyDS 4 .nearest zoomObj).toOption.map
        (fun o => (o.data.headD [[0]]).length)) = some 0 := by
  with_unfolding_all decide

/-- The output band shapes of both branches: truncated products for the
rasterio read, banker's-rounded products for the zoom. -/
theorem resample_band_band_dims (ds : Dataset) (target : ℚ) (m : Resampling) (r : PyStr)
    (out : BandOutput) (hrect : RectBands ds.bands ds.height ds.width)
    (h : resample_band ds target m r = .ok out) :
    ∀ b ∈ out.data,
      (pyIs r rasterioLit = true →
        b.length = (pyInt ((ds.height : ℚ) * resampleScaling ds.res.1 target)).toNat ∧
        ∀ row ∈ b,
          row.length = (pyInt ((ds.width : ℚ) * resampleScaling ds.res.1 target)).toNat) ∧
      (pyIs r rasterioLit = false →
        b.length = (pyRound ((ds.height : ℚ) * resampleScaling ds.res.1 target)).toNat ∧
        ∀ row ∈ b,
          row.length = (pyRound ((ds.width : ℚ) * resampleScaling ds.res.1 target)).toNat) := by
  intro b hbmem
  cases hb : pyIs r rasterioLit with
  | true =>
    refine ⟨fun _ => ?_, fun hfalse => absurd hfalse (by decide)⟩
    rw [resample_band_rasterio ds target m r hb] at h
    cases Except.ok.inj h
    simp only [rasterioRead, List.mem_map] at hbmem
    obtain ⟨k, _, rfl⟩ := hbmem
    refine ⟨by simp only [List.length_map, List.length_range], ?_⟩
    intro row hrow
    simp only [List.mem_map] at hrow
    obtain ⟨i, _, rfl⟩ := hrow
    simp only [List.length_map, List.length_range]
  | false =>
    refine ⟨fun htrue => absurd htrue (by decide), fun _ => ?_⟩
    have hdata := resample_band_data_zoom ds target m r out hb h
    rw [hdata] at hbmem
    simp only [List.mem_map] at hbmem
    obtain ⟨layer, hl, rfl⟩ := hbmem
    have hlh := (hrect layer hl).1
    constructor
    · rw [zoom2d_length, hlh, zoomDim]
    · intro row hrow
      have := zoom2d_row_length layer (resampleScaling ds.res.1 target) row hrow
      match layer, hl, this, hrow with
      | [], hl, this, hrow =>
        exfalso
        have hempty : zoom2d ([] : Band) (resampleScaling ds.res.1 target) = [] := by
          have h0 := zoom2d_length ([] : Band) (resampleScaling ds.res.1 target)
          rw [List.length_nil, zoomDim_zero] at h0
          exact List.length_eq_zero.mp h0
        rw [hempty] at hrow
        cases hrow
      | r0 :: rest0, hl, this, hrow =>
        rw [List.headD_cons] at this
        have hw : r0.length = ds.width :=
          (hrect _ hl).2 r0 (List.mem_cons_self _ _)
        rw [this, hw, zoomDim]

/-- C5 amended: the output grid dimensions are the truncated products
`int(h×scale) × int(w×scale)` in the rasterio branch, and the
banker's-rounded products `round(h×scale) × round(w×scale)` in the zoom
branch; neither branch enforces a ≥ 1 lower bound on them. -/
theorem C5_output_dims (ds : Dataset) (target : ℚ) (m : Resampling) (r : PyStr)
    (out : BandOutput) (hrect : RectBands ds.bands ds.height ds.width)
    (h : resample_band ds target m r = .ok out) :
    ∀ b ∈ out.data,
      (pyIs r rasterioLit = true →
        b.length = (pyInt ((ds.height : ℚ) * resampleScaling ds.res.1 target)).toNat ∧
        ∀ row ∈ b,
          row.length = (pyInt ((ds.width : ℚ) * resampleScaling ds.res.1 target)).toNat) ∧
      (pyIs r rasterioLit = false →
        b.length = (pyRound ((ds.height : ℚ) * resampleScaling ds.res.1 target)).toNat ∧
        ∀ row ∈ b,
          row.length = (pyRound ((ds.width : ℚ) * resampleScaling ds.res.1 target)).toNat) :=
  resample_band_band_dims ds target m r out hrect h

/-- C5 witness: the amended dimension rule on a concrete 2×2 dataset
upsampled by scale factor 2 through the zoom branch. -/
theorem C5_witness :
    RectBands sampleDS.bands sampleDS.height sampleDS.width ∧
    resample_band sampleDS 5 .nearest zoomObj = .ok sampleOut5 ∧
    ∀ b ∈ sampleOut5.data,
      (pyIs zoomObj rasterioLit = true →
        b.length = (pyInt ((sampleDS.height : ℚ) * resampleScaling sampleDS.res.1 5)).toNat ∧
        ∀ row ∈ b,
          row.length = (pyInt ((sampleDS.width : ℚ) * resampleScaling sampleDS.res.1 5)).toNat) ∧
      (pyIs zoomObj rasterioLit = false →
        b.length = (pyRound ((sampleDS.height : ℚ) * resampleScaling sampleDS.res.1 5)).toNat ∧
        ∀ row ∈ b,
          row.length = (pyRound ((sampleDS.width : ℚ) * resampleScaling sampleDS.res.1 5)).toNat) := by
  have hrect : RectBands sampleDS.bands sampleDS.height sampleDS.width := by decide
  have h : resample_band sampleDS 5 .nearest zoomObj = .ok sampleOut5 := by
    with_unfolding_all decide
  exact ⟨hrect, h, C5_output_dims sampleDS 5 .nearest zoomObj sampleOut5 hrect h⟩

/-- C6 counterexample: a 5×4 source at scale 1/2 through the zoom branch gets
a profile declaring `height = 2.5` (the raw float product stored at
lines 32/37 of the source) while the data it is paired with has 2 rows;
the declared height does not match the actual shape. -/
theorem C6_counterexample :
    ((resample_band oddDS 2 .nearest zoomObj).toOption.map
        (fun o => (o.profile.height, (o.data.headD []).length))) = some (5/2, 2) ∧
    ((5 : ℚ)/2) ≠ ((2 : ℕ) : ℚ) := by
  with_unfolding_all decide

/-- C6 amended: the profile's band count always matches the data (the count
key is copied unchanged and both branches preserve the band count); the
declared height/width are always the raw rational products `h×scale`,
`w×scale`, and they equal the actual data shape exactly when those products
are integers. -/
theorem C6_profile_matches_shape (ds : Dataset) (target : ℚ) (m : Resampling)
    (r : PyStr) (out : BandOutput)
    (hc : ds.profile.count = ds.count)
    (hrect : RectBands ds.bands ds.height ds.width)
    (h : resample_band ds target m r = .ok out) :
    out.profile.count = out.data.length ∧
    out.profile.height = (ds.height : ℚ) * resampleScaling ds.res.1 target ∧
    out.profile.width = (ds.width : ℚ) * resampleScaling ds.res.1 target ∧
    ∀ a b : ℕ,
      (ds.height : ℚ) * resampleScaling ds.res.1 target = (a : ℚ) →
      (ds.width : ℚ) * resampleScaling ds.res.1 target = (b : ℚ) →
      ∀ band ∈ out.data, band.length = a ∧ ∀ row ∈ band, row.length = b := by
  have hprof := resample_band_profile_eq ds target m r out h
  have hcount : out.data.length = ds.count := by
    cases hb : pyIs r rasterioLit with
    | true =>
      rw [resample_band_rasterio ds target m r hb] at h
      cases Except.ok.inj h
      simp only [rasterioRead, List.length_map, List.length_range]
    | false =>
      rw [resample_band_data_zoom ds target m r out hb h, List.length_map]
      rfl
  refine ⟨?_, ?_, ?_, ?_⟩
  · rw [hprof, hcount]
    exact hc
  · rw [hprof, resampledProfile]
  · rw [hprof, resampledProfile]
  · intro a b hH hW band hband
    have hdims := resample_band_band_dims ds target m r out hrect h band hband
    cases hb : pyIs r rasterioLit with
    | true =>
      obtain ⟨h1, h2⟩ := hdims.1 hb
      refine ⟨?_, fun row hr => ?_⟩
      · rw [h1, hH, pyInt_natCast, Int.toNat_natCast]
      · rw [h2 row hr, hW, pyInt_natCast, Int.toNat_natCast]
    | false =>
      obtain ⟨h1, h2⟩ := hdims.2 hb
      refine ⟨?_, fun row hr => ?_⟩
      · rw [h1, hH, pyRound_natCast, Int.toNat_natCast]
      · rw [h2 row hr, hW, pyRound_natCast, Int.toNat_natCast]

/-- C6 witness: the amended profile/shape agreement on a concrete 2×2
dataset upsampled by scale factor 2 (integral products 4×4). -/
theorem C6_witness :
    sampleDS.profile.count = sampleDS.count ∧
    RectBands sampleDS.bands sampleDS.height sampleDS.width ∧
    resample_band sampleDS 5 .nearest zoomObj = .ok sampleOut5 ∧
    (sampleOut5.profile.count = sampleOut5.data.length ∧
     sampleOut5.profile.height = (sampleDS.height : ℚ) * resampleScaling sampleDS.res.1 5 ∧
     sampleOut5.profile.width = (sampleDS.width : ℚ) * resampleScaling sampleDS.res.1 5 ∧
     ∀ a b : ℕ,
       (sampleDS.height : ℚ) * resampleScaling sampleDS.res.1 5 = (a : ℚ) →
       (sampleDS.width : ℚ) * resampleScaling sampleDS.res.1 5 = (b : ℚ) →
       ∀ band ∈ sampleOut5.data, band.length = a ∧ ∀ row ∈ band, row.length = b) := by
  have hc : sampleDS.profile.count = sampleDS.count := by decide
  have hrect : RectBands sampleDS.bands sampleDS.height sampleDS.width := by decide
  have h : resample_band sampleDS 5 .nearest zoomObj = .ok sampleOut5 := by
    with_unfolding_all decide
  exact ⟨hc, hrect, h,
    C6_profile_matches_shape sampleDS 5 .nearest zoomObj sampleOut5 hc hrect h⟩

/-- C7: under the FixedNearest (zoom) strategy the requested interpolation
policy has no influence on the output — resampling with any two policies
yields identical results — and the strategy is order-0: every output pixel
is a copy of some source pixel of the same band, obtained through
edge-clamped index lookups (no blending). -/
theorem C7_zoom_ignores_policy (ds : Dataset) (target : ℚ) (m₁ m₂ : Resampling)
    (r : PyStr) (hr : pyIs r rasterioLit = false)
    (hrect : RectBands ds.bands ds.height ds.width) :
    resample_band ds target m₁ r = resample_band ds target m₂ r ∧
    ∀ out, resample_band ds target m₁ r = .ok out →
      ∀ band ∈ out.data, ∃ layer ∈ ds.bands,
        ∀ row ∈ band, ∀ v ∈ row, ∃ srow ∈ layer, v ∈ srow := by
  constructor
  · rw [resample_band_zoom ds target m₁ r hr, resample_band_zoom ds target m₂ r hr]
  · intro out hout band hband
    have hdata := resample_band_data_zoom ds target m₁ r out hr hout
    rw [hdata] at hband
    simp only [List.mem_map] at hband
    obtain ⟨layer, hl, rfl⟩ := hband
    refine ⟨layer, hl, ?_⟩
    intro row hrow v hv
    simp only [zoom2d, List.mem_map] at hrow
    obtain ⟨i, hi, rfl⟩ := hrow
    rw [List.mem_range] at hi
    simp only [List.mem_map] at hv
    obtain ⟨j, hj, rfl⟩ := hv
    rw [List.mem_range] at hj
    have hlh : 0 < layer.length := by
      rcases Nat.eq_zero_or_pos layer.length with h0 | h0
      · rw [h0, zoomDim_zero] at hi; omega
      · exact h0
    obtain ⟨l0, rest, rfl⟩ := List.exists_cons_of_ne_nil (List.ne_nil_of_length_pos hlh)
    simp only [List.headD_cons] at hj ⊢
    have hw' : 0 < l0.length := by
      rcases Nat.eq_zero_or_pos l0.length with h0 | h0
      · rw [h0, zoomDim_zero] at hj; omega
      · exact h0
    have hi' : zoomIdx (l0 :: rest).length
        (zoomDim (l0 :: rest).length (resampleScaling ds.res.1 target)) i
          < (l0 :: rest).length := by
      rw [zoomIdx]; exact clampIdx_lt _ _ hlh
    have hj' : zoomIdx l0.length
        (zoomDim l0.length (resampleScaling ds.res.1 target)) j < l0.length := by
      rw [zoomIdx]; exact clampIdx_lt _ _ hw'
    refine ⟨(l0 :: rest).getD (zoomIdx (l0 :: rest).length
        (zoomDim (l0 :: rest).length (resampleScaling ds.res.1 target)) i) [],
      getD_mem _ _ _ hi', ?_⟩
    have hsrow : ((l0 :: rest).getD (zoomIdx (l0 :: rest).length
        (zoomDim (l0 :: rest).length (resampleScaling ds.res.1 target)) i) []).length
          = ds.width :=
      (hrect _ hl).2 _ (getD_mem _ _ _ hi')
    have hl0w : l0.length = ds.width := (hrect _ hl).2 l0 (List.mem_cons_self _ _)
    refine getD_mem _ _ _ ?_
    rw [hsrow, ← hl0w]
    exact hj'

/-- C7 witness: on a concrete 2×2 dataset downsampled from 10 m pixels to a
4 m target under the zoom strategy, Bilinear and Cubic give identical output
and every output value is a source value. -/
theorem C7_witness :
    pyIs zoomObj rasterioLit = false ∧
    RectBands sampleDS.bands sampleDS.height sampleDS.width ∧
    (resample_band sampleDS 4 .bilinear zoomObj = resample_band sampleDS 4 .cubic zoomObj ∧
     ∀ out, resample_band sampleDS 4 .bilinear zoomObj = .ok out →
       ∀ band ∈ out.data, ∃ layer ∈ sampleDS.bands,
         ∀ row ∈ band, ∀ v ∈ row, ∃ srow ∈ layer, v ∈ srow) := by
  have h1 : pyIs zoomObj rasterioLit = false := by decide
  have h2 : RectBands sampleDS.bands sampleDS.height sampleDS.width := by decide
  exact ⟨h1, h2, C7_zoom_ignores_policy sampleDS 4 .bilinear .cubic zoomObj h1 h2⟩

/-- C8 counterexample: with three subdatasets whose middle one has
mismatched band shapes, the whole run aborts with `ShapeMismatch`; the
other two subdatasets are not processed or written (no `s_0`/`s_2` files),
contrary to the claimed isolate-and-continue behaviour. -/
theorem C8_counterexample :
    load_and_resample [sampleDS, raggedDS, sampleDS] "o" "s" 10 .nearest zoomObj
      = .error .ShapeMismatch := by
  with_unfolding_all decide

/-- On a fully successful run, the write paths are exactly the
discovery-order indices `0..n-1` formatted through `toCreate`. -/
theorem map_path_enum (l : List BandOutput) (op ns : String) :
    ((l.enum.map fun (x : Nat × BandOutput) =>
        { path := toCreate op ns x.1
          data := x.2.data.map fun band => band.map fun row => row.map toUint16
          profile := x.2.profile : WriteRecord }).map fun wrec => wrec.path)
      = (List.range l.length).map (toCreate op ns) := by
  rw [List.map_map, ← List.enum_map_fst l, List.map_map]
  refine List.map_congr_left fun p _ => ?_
  cases p
  rfl

/-- C8 amended: a failure in any subdataset's resample aborts the whole run
with an error — the remaining subdatasets are not processed and no file at
all is written, and no failures are collected — while on a fully successful
run the output files are numbered consecutively `0..n-1` in discovery order
(no index is ever skipped). -/
theorem C8_failure_aborts (sds : List Dataset) (op ns : String) (t : ℤ)
    (m : Resampling) (r : PyStr) :
    ((∃ d ∈ sds, ∃ e, resample_band d (t : ℚ) m r = .error e) →
      ∃ e', load_and_resample sds op ns t m r = .error e') ∧
    (∀ res, load_and_resample sds op ns t m r = .ok res →
      res.written.map (fun wrec => wrec.path) =
        (List.range res.outputs.length).map (toCreate op ns)) := by
  constructor
  · rintro ⟨d, hd, e, he⟩
    obtain ⟨e', hmap⟩ :=
      mapExcept_error (fun d => resample_band d (t : ℚ) m r) sds d hd e he
    refine ⟨e', ?_⟩
    show Except.bind (mapExcept (fun d => resample_band d (t : ℚ) m r) sds) _
        = Except.error e'
    rw [hmap]
    rfl
  · intro res hres
    cases hmap : mapExcept (fun d => resample_band d (t : ℚ) m r) sds with
    | error e =>
      have habort : load_and_resample sds op ns t m r = .error e := by
        show Except.bind (mapExcept (fun d => resample_band d (t : ℚ) m r) sds) _
            = Except.error e
        rw [hmap]
        rfl
      rw [habort] at hres
      cases hres
    | ok resampled =>
      have hok : load_and_resample sds op ns t m r = .ok
          ⟨(resampled.map fun o =>
              { o with profile :=
                { o.profile with driver := "GTiff", dtype := "uint16" } }),
            ((resampled.map fun o =>
              { o with profile :=
                { o.profile with driver := "GTiff", dtype := "uint16" } }).enum.map
              fun (ds_num, o) =>
                { path := toCreate op ns ds_num
                  data := o.data.map fun band => band.map fun row => row.map toUint16
                  profile := o.profile : WriteRecord })⟩ := by
        show Except.bind (mapExcept (fun d => resample_band d (t : ℚ) m r) sds) _
            = _
        rw [hmap]
        rfl
      rw [hok] at hres
      cases Except.ok.inj hres
      exact map_path_enum _ op ns

/-- C8 witness: a concrete three-subdataset run whose middle subdataset has
ragged bands aborts with an error, and a concrete two-subdataset run writes
`s_0` and `s_1` consecutively. -/
theorem C8_witness :
    (∃ d ∈ [sampleDS, raggedDS, sampleDS], ∃ e,
        resample_band d ((10 : ℤ) : ℚ) .nearest zoomObj = .error e) ∧
    (∃ e', load_and_resample [sampleDS, raggedDS, sampleDS] "o" "s" 10 .nearest zoomObj
        = .error e') ∧
    (load_and_resample [sampleDS, sampleDS] "o" "s" 10 .nearest zoomObj).toOption.map
        (fun res => res.written.map fun wrec => wrec.path)
      = some ["/o/s_0.tiff", "/o/s_1.tiff"] := by
  have hfail : ∃ d ∈ [sampleDS, raggedDS, sampleDS], ∃ e,
      resample_band d ((10 : ℤ) : ℚ) .nearest zoomObj = .error e :=
    ⟨raggedDS, by decide, .ShapeMismatch, by with_unfolding_all decide⟩
  refine ⟨hfail,
    (C8_failure_aborts [sampleDS, raggedDS, sampleDS] "o" "s" 10 .nearest zoomObj).1 hfail,
    by with_unfolding_all decide⟩

/-- C9: `resample_band` selects the policy-aware rasterio branch only when
the resampler argument is the very same string object as the `"rasterio"`
literal (identity comparison `is`); a value-equal but distinct string object
fails the test and takes the fixed nearest-neighbor zoom branch, behaving
exactly as if `"zoom"` had been requested. -/
theorem C9_identity_dispatch (ds : Dataset) (target : ℚ) (m : Resampling)
    (r : PyStr) (_hval : r.val = "rasterio") (hid : r.id ≠ rasterioLit.id) :
    pyIs r rasterioLit = false ∧
    resample_band ds target m r = resample_band ds target m ⟨r.id, "zoom"⟩ := by
  have hb : pyIs r rasterioLit = false := by
    rw [pyIs]
    exact beq_eq_false_iff_ne.mpr hid
  have hb2 : pyIs ⟨r.id, "zoom"⟩ rasterioLit = false := by
    rw [pyIs]
    exact beq_eq_false_iff_ne.mpr hid
  exact ⟨hb, by
    rw [resample_band_zoom ds target m r hb,
      resample_band_zoom ds target m ⟨r.id, "zoom"⟩ hb2]⟩

/-- C9 witness: a freshly constructed string object with value `"rasterio"`
but a different object id takes the zoom branch on a concrete dataset. -/
theorem C9_witness :
    (PyStr.mk 7 "rasterio").val = "rasterio" ∧
    (PyStr.mk 7 "rasterio").id ≠ rasterioLit.id ∧
    (pyIs ⟨7, "rasterio"⟩ rasterioLit = false ∧
     resample_band sampleDS 5 .nearest ⟨7, "rasterio"⟩ =
       resample_band sampleDS 5 .nearest ⟨7, "zoom"⟩) :=
  ⟨rfl, by decide,
    C9_identity_dispatch sampleDS 5 .nearest ⟨7, "rasterio"⟩ rfl (by decide)⟩

theorem pyFormatAux_cons_ne (c d : Char) (rest : List Char) (args : List String)
    (h : ¬(c = lbrace ∧ d = rbrace)) :
    pyFormatAux (c :: d :: rest) args = c :: pyFormatAux (d :: rest) args := by
  simp only [pyFormatAux]
  rw [if_neg h]

theorem pyFormatAux_placeholder (rest : List Char) (a : String) (as : List String) :
    pyFormatAux (lbrace :: rbrace :: rest) (a :: as) = a.data ++ pyFormatAux rest as := by
  simp [pyFormatAux]

theorem pyFormatAux_single (c : Char) (args : List String) :
    pyFormatAux [c] args = [c] := by
  simp only [pyFormatAux]

/-- The characters produced by formatting the path template at line 136. -/
theorem pyFormatAux_template (a b c : String) :
    pyFormatAux ("/\x7b\x7d/\x7b\x7d_\x7b\x7d.tiff").data [a, b, c]
      = '/' :: (a.data ++ '/' :: (b.data ++ '_' ::
          (c.data ++ ['.', 't', 'i', 'f', 'f']))) := by
  have htempl : ("/\x7b\x7d/\x7b\x7d_\x7b\x7d.tiff").data
      = ['/', lbrace, rbrace, '/', lbrace, rbrace, '_', lbrace, rbrace,
         '.', 't', 'i', 'f', 'f'] := by decide
  rw [htempl,
    pyFormatAux_cons_ne _ _ _ _ (by decide),
    pyFormatAux_placeholder,
    pyFormatAux_cons_ne _ _ _ _ (by decide),
    pyFormatAux_placeholder,
    pyFormatAux_cons_ne _ _ _ _ (by decide),
    pyFormatAux_placeholder,
    pyFormatAux_cons_ne _ _ _ _ (by decide),
    pyFormatAux_cons_ne _ _ _ _ (by decide),
    pyFormatAux_cons_ne _ _ _ _ (by decide),
    pyFormatAux_cons_ne _ _ _ _ (by decide),
    pyFormatAux_single]

/-- The character content of each built output path. -/
theorem toCreate_data (op ns : String) (i : Nat) :
    (toCreate op ns i).data = '/' :: (op.data ++ '/' :: (ns.data ++ '_' ::
        ((toString i).data ++ ['.', 't', 'i', 'f', 'f']))) := by
  rw [toCreate, pyFormat]
  exact pyFormatAux_template op ns (toString i)

/-- C10: every written subdataset's path is
`"/" ++ output_path ++ "/" ++ naming_scheme ++ "_" ++ index ++ ".tiff"` —
a slash is always prepended, so the path begins at the filesystem root
regardless of `output_path`, and the extension is always `.tiff`. -/
theorem C10_path_format (op ns : String) (i : Nat) :
    toCreate op ns i = "/" ++ op ++ "/" ++ ns ++ "_" ++ toString i ++ ".tiff" ∧
    (toCreate op ns i).data.head? = some '/' ∧
    List.IsSuffix ".tiff".data (toCreate op ns i).data := by
  have hslash : ("/" : String).data = ['/'] := by decide
  have hus : ("_" : String).data = ['_'] := by decide
  have htiff : (".tiff" : String).data = ['.', 't', 'i', 'f', 'f'] := by decide
  have hdata := toCreate_data op ns i
  refine ⟨?_, ?_, ?_⟩
  · apply String.ext
    simp only [String.data_append, hslash, hus, htiff, hdata]
    simp [List.append_assoc]
  · rw [hdata]
    rfl
  · rw [hdata, htiff]
    refine ⟨'/' :: (op.data ++ '/' :: (ns.data ++ '_' :: (toString i).data)), ?_⟩
    simp [List.append_assoc]
